import Mathlib

/-!
Verification of the Draw-DFD core engines against their source.

The definitions below are shallow embeddings of the TypeScript source of
the Draw-DFD repository:

* `validateDiagram` / `filterValidationForUI` from `src/core/rules.ts`
  (reproduced in the repository README);
* `decodePosition` / `encodePosition` from
  `src/components/diagram/EntityNode.tsx`;
* the manual L-shape router, the wire-jump intersection logic and the
  label-position computation from
  `src/components/diagram/CustomOrthogonalEdge.tsx` and
  `src/components/diagram/level0/Level0Edge.tsx`;
* the handle collision-relaxation loop of the Level-0 `ProcessNode`.

Real-valued quantities are modelled with `ℚ` (the source only ever
performs field operations on them in the fragments verified here); a
JavaScript division whose result can be non-finite (`NaN`/`Infinity`)
is modelled through `Option`, `none` marking the non-finite outcome.
`crypto.randomUUID()` is modelled by an explicit supply `gen : Nat → String`
of the values the call sequence returns: one invocation of
`validateDiagram` consumes `gen 0, gen 1, ...` in the order the source
pushes findings; distinct invocations consume distinct segments of the
randomness stream, hence are modelled by distinct supplies.
-/

namespace DFD

/-- Severity of a validation finding (`ValidationResult['severity']`). -/
inductive Severity where
  | error | warning | info
deriving DecidableEq, Repr

/-- Node type tag (`DFDNodeType`), including the `process_ref` variant used
by the Level-0 components. -/
inductive NodeType where
  | entity | process | datastore | processRef
deriving DecidableEq, Repr

/-- DFD node, the tagged union `DFDNode` of `core/types.ts` flattened into
one record: variant-specific fields (`processNumber`, `storeCode`,
`width`, `height`, `diameter`) are carried by every node and ignored by
code that does not consult them, exactly as unchecked field accesses do
in the source.  A missing `processNumber`/`storeCode` ("falsy" in the
TypeScript checks) is the empty string. -/
structure DFDNode where
  id : String
  type : NodeType
  label : String
  level : Nat
  posX : ℚ := 0
  posY : ℚ := 0
  processNumber : String := ""
  storeCode : String := ""
  width : Option ℚ := none
  height : Option ℚ := none
  diameter : Option ℚ := none
deriving DecidableEq, Repr

/-- Stored `arrowDirection` of an edge. -/
inductive ArrowDir where
  | horizontalFirst | verticalFirst | smart
deriving DecidableEq, Repr

/-- DFD edge (`DFDEdge` of `core/types.ts`). -/
structure DFDEdge where
  id : String
  label : String
  sourceNodeId : String
  targetNodeId : String
  level : Nat
  sourceAngleOffset : Option ℚ := none
  targetAngleOffset : Option ℚ := none
  arrowDirection : Option ArrowDir := none
  labelOffset : Option ℚ := none
deriving DecidableEq, Repr

/-- DFD diagram (`DFDDiagram` of `core/types.ts`); the fields the core
never reads (`id`, `name`, `systemName`, `parentDiagramId`) are dropped. -/
structure DFDDiagram where
  level : Nat
  nodes : List DFDNode
  edges : List DFDEdge
deriving DecidableEq, Repr

/-- Finding of the validation engine minus its random `id` field:
everything `addResult` computes from the diagram. -/
structure FindingCore where
  ruleCode : String
  severity : Severity
  message : String
  nodeId : Option String := none
  edgeId : Option String := none
deriving DecidableEq, Repr

/-- `ValidationResult` of `core/types.ts`, `id` included. -/
structure ValidationResult where
  id : String
  ruleCode : String
  severity : Severity
  message : String
  nodeId : Option String := none
  edgeId : Option String := none
deriving DecidableEq, Repr

/-- JavaScript `String.prototype.trim`: strip leading and trailing
whitespace. -/
def jsTrim (s : String) : String :=
  String.mk (((s.data.dropWhile Char.isWhitespace).reverse.dropWhile
    Char.isWhitespace).reverse)

/-- Blank-string test used by the rules: `!s || s.trim() === ''`. -/
def strBlank (s : String) : Bool :=
  s == "" || jsTrim s == ""

/-- Lookup in the `nodeMap` built by `validateDiagram`: `Map.set` keeps the
last node written under an id, so `get` returns the last occurrence. -/
def nodeMapGet (nodes : List DFDNode) (i : String) : Option DFDNode :=
  (nodes.filter (fun n => n.id == i)).getLast?

/-- Node-level rules N-002 / N-003, in push order. -/
def nodeRuleFindings (n : DFDNode) : List FindingCore :=
  (if n.type == .process then
    (if n.processNumber == "" then
      [⟨"N-002", .error, "Process must have a number.", some n.id, none⟩] else [])
    ++
    (if strBlank n.label then
      [⟨"N-002", .error, "Process must have a name.", some n.id, none⟩] else [])
  else [])
  ++
  (if n.type == .datastore then
    (if n.storeCode == "" then
      [⟨"N-003", .error, "Data Store must have an identifier (e.g., D1).", some n.id, none⟩]
     else [])
  else [])

/-- Edge-level rules E-001 .. E-005, in push order.  E-001 fires before the
endpoint resolution; an unresolved endpoint pushes E-002 and `return`s,
skipping the E-003/E-004/E-005 type checks for that edge. -/
def edgeRuleFindings (nodes : List DFDNode) (e : DFDEdge) : List FindingCore :=
  (if strBlank e.label then
    [⟨"E-001", .error, "Data flow must be named.", none, some e.id⟩] else [])
  ++
  (match nodeMapGet nodes e.sourceNodeId, nodeMapGet nodes e.targetNodeId with
   | some source, some target =>
     (if source.type == .entity && target.type == .entity then
       [⟨"E-003", .error, "External entities cannot exchange data directly.", none, some e.id⟩]
      else [])
     ++
     (if source.type == .datastore && target.type == .datastore then
       [⟨"E-004", .error, "Data stores cannot exchange data directly.", none, some e.id⟩]
      else [])
     ++
     (if (source.type == .entity && target.type == .datastore)
         || (source.type == .datastore && target.type == .entity) then
       [⟨"E-005", .error,
         "Data stores must connect via a process, not directly to entities.", none, some e.id⟩]
      else [])
   | _, _ =>
     [⟨"E-002", .error, "Data flow must connect two valid nodes.", none, some e.id⟩])

/-- Incoming edges of a node: `edges.filter(e => e.targetNodeId === node.id)`. -/
def inputsOf (edges : List DFDEdge) (nid : String) : List DFDEdge :=
  edges.filter (fun e => e.targetNodeId == nid)

/-- Outgoing edges of a node: `edges.filter(e => e.sourceNodeId === node.id)`. -/
def outputsOf (edges : List DFDEdge) (nid : String) : List DFDEdge :=
  edges.filter (fun e => e.sourceNodeId == nid)

/-- Connectivity rules N-004 / P-001 / P-002 / P-003 for one node, in push
order; the edge lists are never filtered by level. -/
def connectivityFindings (edges : List DFDEdge) (n : DFDNode) : List FindingCore :=
  let inputs := inputsOf edges n.id
  let outputs := outputsOf edges n.id
  (if inputs.length + outputs.length == 0 then
    [⟨"N-004", .warning, "Node is not connected to any data flow.", some n.id, none⟩] else [])
  ++
  (if n.type == .process then
    (if inputs.length == 0 then
      [⟨"P-001", .error, "Process must receive at least one data input.", some n.id, none⟩]
     else [])
    ++
    (if outputs.length == 0 then
      [⟨"P-002", .error, "Process must produce at least one data output.", some n.id, none⟩]
     else [])
    ++
    (if (edges.filter (fun e => e.sourceNodeId == n.id && e.targetNodeId == n.id)).length > 0 then
      [⟨"P-003", .warning, "Self-referencing process detected.", some n.id, none⟩]
     else [])
  else [])

/-- Level-0 diagram rules D-001 / L0-001 / D-002; the node list is never
filtered by level. -/
def level0Findings (d : DFDDiagram) : List FindingCore :=
  if d.level == 0 then
    let processNodes := d.nodes.filter (fun n => n.type == .process)
    (if processNodes.length != 1 then
      [⟨"D-001", .error, "Level 0 DFD must contain exactly one process.", none, none⟩]
     else
      match processNodes.head? with
      | some mainProcess =>
        if mainProcess.processNumber != "0.0" then
          [⟨"L0-001", .error, "Level 0 process must be numbered 0.0.", some mainProcess.id, none⟩]
        else []
      | none => [])
    ++
    ((d.nodes.filter (fun n => n.type == .datastore)).map (fun s =>
      ⟨"D-002", .error, "Data stores are not allowed in Level 0 DFD.", some s.id, none⟩))
  else []

/-- Decidable rendering of the regex `^[1-9][0-9]*\.0$`. -/
def isL1ProcessNumber (s : String) : Bool :=
  let rec tail : List Char → Bool
    | ['.', '0'] => true
    | c :: rest => decide ('0' ≤ c ∧ c ≤ '9') && tail rest
    | [] => false
  match s.data with
  | c :: rest => decide ('1' ≤ c ∧ c ≤ '9') && tail rest
  | [] => false

/-- Level-1 diagram rule L1-001. -/
def level1Findings (d : DFDDiagram) : List FindingCore :=
  if d.level == 1 then
    (d.nodes.filter (fun n => n.type == .process)).map (fun pNode =>
      if !isL1ProcessNumber pNode.processNumber then
        [⟨"L1-001", .error,
          "Level 1 processes must be numbered X.0 (e.g., 1.0, 2.0). Found: "
            ++ pNode.processNumber, some pNode.id, none⟩]
      else [])
    |>.flatten
  else []

/-- All findings of `validateDiagram`, in push order, before ids are drawn. -/
def validateCore (d : DFDDiagram) : List FindingCore :=
  d.nodes.flatMap nodeRuleFindings
  ++ d.edges.flatMap (edgeRuleFindings d.nodes)
  ++ d.nodes.flatMap (connectivityFindings d.edges)
  ++ level0Findings d
  ++ level1Findings d

/-- Attach the ids drawn from the `crypto.randomUUID()` supply, in push
order, starting at draw index `k`. -/
def attachIds (gen : Nat → String) : Nat → List FindingCore → List ValidationResult
  | _, [] => []
  | k, c :: rest =>
    ⟨gen k, c.ruleCode, c.severity, c.message, c.nodeId, c.edgeId⟩ :: attachIds gen (k + 1) rest

/-- `validateDiagram` of `core/rules.ts`; `gen` supplies the successive
`crypto.randomUUID()` results of this invocation. -/
def validateDiagram (gen : Nat → String) (d : DFDDiagram) : List ValidationResult :=
  attachIds gen 0 (validateCore d)

/-- Forget the random `id` of a finding. -/
def stripId (r : ValidationResult) : FindingCore :=
  ⟨r.ruleCode, r.severity, r.message, r.nodeId, r.edgeId⟩

/-- `filterValidationForUI` of `core/rules.ts` (the filter predicate,
verbatim). -/
def keepForUI (d : DFDDiagram) (r : ValidationResult) : Bool :=
  let hasFlows := d.edges.length > 0
  let processCount := (d.nodes.filter (fun n => n.type == .process)).length
  if r.ruleCode == "D-001" && processCount == 1 then false
  else if !hasFlows then
    if r.severity != .error then false
    else !(["N-004", "P-001", "P-002", "L0-001"].contains r.ruleCode)
  else true

/-- `filterValidationForUI` of `core/rules.ts`. -/
def filterValidationForUI (results : List ValidationResult) (d : DFDDiagram) :
    List ValidationResult :=
  results.filter (keepForUI d)

/-! Rectangular-handle geometry of `EntityNode.tsx`. -/

/-- Side of a rectangular node. -/
inductive Side where
  | top | right | bottom | left
deriving DecidableEq, Repr

/-- `Math.max(0, Math.min(100, x))`. -/
def clamp100 (x : ℚ) : ℚ := max 0 (min 100 x)

/-- `decodePosition` of `EntityNode.tsx`: recover `(side, offset)` from the
encoded scalar; `0` is the unset marker mapping to the right-center
default. -/
def decodePosition (encodedOffset : ℚ) : Side × ℚ :=
  if encodedOffset = 0 then (.right, 50)
  else
    let n := clamp100 encodedOffset
    if 0 ≤ n ∧ n < 25 then (.top, n / 25 * 100)
    else if 25 ≤ n ∧ n < 50 then (.right, (n - 25) / 25 * 100)
    else if 50 ≤ n ∧ n < 75 then (.bottom, (n - 50) / 25 * 100)
    else (.left, (n - 75) / 25 * 100)

/-- `encodePosition` of `EntityNode.tsx`. -/
def encodePosition (side : Side) (offset : ℚ) : ℚ :=
  let n := clamp100 offset
  match side with
  | .top => n / 100 * 25
  | .right => 25 + n / 100 * 25
  | .bottom => 50 + n / 100 * 25
  | .left => 75 + n / 100 * 25

/-! Manual orthogonal router of `CustomOrthogonalEdge.tsx` /
`Level0Edge.tsx`. -/

/-- A point of the canvas. -/
structure Pt where
  x : ℚ
  y : ℚ
deriving DecidableEq, Repr

/-- Direction of the manual L-shape. -/
inductive ManualDir where
  | horizontalFirst | verticalFirst
deriving DecidableEq, Repr

/-- Choice of `currentDirection` in the manual branch: a stored
horizontal/vertical direction wins; otherwise the source endpoint's
boundary side decides (`bottom` gives vertical-first). -/
def manualDirection (stored : Option ArrowDir) (sourcePosition : Side) : ManualDir :=
  match stored with
  | some .horizontalFirst => .horizontalFirst
  | some .verticalFirst => .verticalFirst
  | _ => if sourcePosition == .bottom then .verticalFirst else .horizontalFirst

/-- One straight segment of the path. -/
structure Seg where
  p1 : Pt
  p2 : Pt
deriving DecidableEq, Repr

/-- The two segments of the manual L-shape. -/
def manualSegments (dir : ManualDir) (s t : Pt) : List Seg :=
  match dir with
  | .horizontalFirst => [⟨⟨s.x, s.y⟩, ⟨t.x, s.y⟩⟩, ⟨⟨t.x, s.y⟩, ⟨t.x, t.y⟩⟩]
  | .verticalFirst => [⟨⟨s.x, s.y⟩, ⟨s.x, t.y⟩⟩, ⟨⟨s.x, t.y⟩, ⟨t.x, t.y⟩⟩]

/-- The points a segment chain visits, in order. -/
def segPoints : List Seg → List Pt
  | [] => []
  | s :: rest => s.p1 :: s.p2 :: (rest.map Seg.p2)

/-- Segment orientation tag used by the jump logic. -/
inductive SegTy where
  | h | v
deriving DecidableEq, Repr

/-- Typed segment of another edge, as produced by `getEdgeSegments`. -/
structure TSeg where
  p1 : Pt
  p2 : Pt
  ty : SegTy
deriving DecidableEq, Repr

/-- Another manual edge as the jump logic sees it: its stored direction and
its two resolved endpoint positions. -/
structure OtherEdge where
  stored : Option ArrowDir
  p1 : Pt
  p2 : Pt
deriving DecidableEq, Repr

/-- `getEdgeSegments` of `Level0Edge.tsx`: replicate the other edge's
L-shape from its endpoints; any stored direction other than
horizontal/vertical falls back to horizontal-first. -/
def getEdgeSegments (oe : OtherEdge) : List TSeg :=
  let dir : ManualDir :=
    match oe.stored with
    | some .verticalFirst => .verticalFirst
    | some .horizontalFirst => .horizontalFirst
    | _ => .horizontalFirst
  match dir with
  | .horizontalFirst =>
    [⟨⟨oe.p1.x, oe.p1.y⟩, ⟨oe.p2.x, oe.p1.y⟩, .h⟩, ⟨⟨oe.p2.x, oe.p1.y⟩, ⟨oe.p2.x, oe.p2.y⟩, .v⟩]
  | .verticalFirst =>
    [⟨⟨oe.p1.x, oe.p1.y⟩, ⟨oe.p1.x, oe.p2.y⟩, .v⟩, ⟨⟨oe.p1.x, oe.p2.y⟩, ⟨oe.p2.x, oe.p2.y⟩, .h⟩]

/-- A recorded crossing: distance from the owning segment's start, the
crossing point, and the index of the owning segment. -/
structure Crossing where
  dist : ℚ
  pt : Pt
  segmentIndex : Nat
deriving DecidableEq, Repr

/-- The jump radius constant of the source. -/
def jumpRadius : ℚ := 6

/-- Orientation of one of the edge's own segments, computed as in the
source: horizontal when the two `y` coordinates agree. -/
def mySegTy (s : Seg) : SegTy := if s.p1.y == s.p2.y then .h else .v

/-- Crossings of one of the edge's own segments with one typed segment of
another edge.  The source only records a crossing when the own segment is
vertical and the other horizontal ("Vertical lines jump over Horizontal
lines"), with a `jumpRadius` margin excluded at each end of both
segments. -/
def segCrossing (myIdx : Nat) (mySeg : Seg) (otherSeg : TSeg) : List Crossing :=
  if mySegTy mySeg != otherSeg.ty then
    if mySegTy mySeg == .v then
      let minY := min mySeg.p1.y mySeg.p2.y
      let maxY := max mySeg.p1.y mySeg.p2.y
      let otherY := otherSeg.p1.y
      let minX := min otherSeg.p1.x otherSeg.p2.x
      let maxX := max otherSeg.p1.x otherSeg.p2.x
      let myX := mySeg.p1.x
      if otherY > minY + jumpRadius ∧ otherY < maxY - jumpRadius ∧
         myX > minX + jumpRadius ∧ myX < maxX - jumpRadius then
        [⟨|otherY - mySeg.p1.y|, ⟨myX, otherY⟩, myIdx⟩]
      else []
    else []
  else []

/-- All crossings the jump logic records for this edge: every other edge
whose stored direction is not `smart`, own segments outer, other segments
inner, as in the source's nested loops. -/
def computeIntersections (mySegs : List Seg) (others : List OtherEdge) : List Crossing :=
  others.flatMap (fun oe =>
    if oe.stored == some .smart then []
    else
      (mySegs.enum.flatMap (fun p =>
        (getEdgeSegments oe).flatMap (fun os => segCrossing p.1 p.2 os))))

/-- One drawable path command. -/
inductive PathCmd where
  | move (p : Pt)
  | line (p : Pt)
  | arc (r : ℚ) (p : Pt)
deriving DecidableEq, Repr

/-- The crossings assigned to segment `idx`, ordered by distance from the
segment's start (`sort((a, b) => a.dist - b.dist)`). -/
def jumpsForSegment (inters : List Crossing) (idx : Nat) : List Crossing :=
  (inters.filter (fun i => i.segmentIndex == idx)).insertionSort
    (fun a b => a.dist ≤ b.dist)

/-- `Math.sign(x) || 1`. -/
def signOr1 (x : ℚ) : ℚ := if x > 0 then 1 else if x < 0 then -1 else 1

/-- Path commands for one segment: for each of its jumps, in distance
order, a line to `jumpRadius` before the crossing and a semicircular arc
of radius `jumpRadius` to `jumpRadius` past it; then a line to the
segment's endpoint. -/
def segCmds (inters : List Crossing) (idx : Nat) (seg : Seg) : List PathCmd :=
  let jumps := jumpsForSegment inters idx
  let isHoriz := seg.p1.y == seg.p2.y
  let signX := signOr1 (seg.p2.x - seg.p1.x)
  let signY := signOr1 (seg.p2.y - seg.p1.y)
  (jumps.flatMap (fun j =>
    if isHoriz then
      [.line ⟨j.pt.x - jumpRadius * signX, j.pt.y⟩,
       .arc jumpRadius ⟨j.pt.x + jumpRadius * signX, j.pt.y⟩]
    else
      [.line ⟨j.pt.x, j.pt.y - jumpRadius * signY⟩,
       .arc jumpRadius ⟨j.pt.x, j.pt.y + jumpRadius * signY⟩]))
  ++ [.line seg.p2]

/-- Path generation with jumps: a move to the start of the first segment,
then each segment's commands. -/
def buildPath (segs : List Seg) (inters : List Crossing) : List PathCmd :=
  (match segs.head? with
   | some s => [.move s.p1]
   | none => [])
  ++ segs.enum.flatMap (fun p => segCmds inters p.1 p.2)

/-! Label placement. -/

/-- JavaScript division as used on label geometry: a zero divisor makes the
result non-finite (`0/0` is `NaN`, `x/0` is `±Infinity`), modelled as
`none`. -/
def jsDiv (a b : ℚ) : Option ℚ := if b = 0 then none else some (a / b)

/-- Label position of the manual branch (`CustomOrthogonalEdge.tsx` lines
154-183, identical in `Level0Edge.tsx`): walk `labelOffset` of the L1
path length along the horizontal-then-vertical (or
vertical-then-horizontal) segments.  The divisions by `horizontalLength`
/ `verticalLength` are unguarded in the source; each coordinate is
`none` when its computation divides by zero (a non-finite coordinate in
JavaScript). -/
def manualLabelPos (dir : ManualDir) (s t : Pt) (labelOffset : ℚ) :
    Option ℚ × Option ℚ :=
  match dir with
  | .horizontalFirst =>
    let horizontalLength := |t.x - s.x|
    let verticalLength := |t.y - s.y|
    let totalLength := horizontalLength + verticalLength
    let offsetDistance := totalLength * labelOffset
    if offsetDistance ≤ horizontalLength then
      ((jsDiv offsetDistance horizontalLength).map (fun r => s.x + (t.x - s.x) * r),
       some s.y)
    else
      (some t.x,
       (jsDiv (offsetDistance - horizontalLength) verticalLength).map
         (fun r => s.y + (t.y - s.y) * r))
  | .verticalFirst =>
    let verticalLength := |t.y - s.y|
    let horizontalLength := |t.x - s.x|
    let totalLength := verticalLength + horizontalLength
    let offsetDistance := totalLength * labelOffset
    if offsetDistance ≤ verticalLength then
      (some s.x,
       (jsDiv offsetDistance verticalLength).map (fun r => s.y + (t.y - s.y) * r))
    else
      ((jsDiv (offsetDistance - verticalLength) horizontalLength).map
         (fun r => s.x + (t.x - s.x) * r),
       some t.y)

/-- A parsed sub-segment of the smart step path, with its precomputed
length (irrational in the source; abstracted as an arbitrary input
here since only the `len > 0` guard is at stake). -/
structure PathSeg where
  len : ℚ
  p1 : Pt
  p2 : Pt
deriving DecidableEq, Repr

/-- Label walk of the smart branch (`CustomOrthogonalEdge.tsx` lines
100-109): accumulate segment lengths until the target arc length falls in
the current segment, then interpolate; the interpolation ratio is guarded
by `seg.len > 0 ? innerLen / seg.len : 0`, so the division never has a
zero divisor.  The label defaults to the path center when the walk never
breaks. -/
def walkLabel (center : Pt) (targetLen : ℚ) :
    List PathSeg → ℚ → Option ℚ × Option ℚ
  | [], _ => (some center.x, some center.y)
  | seg :: rest, currentLen =>
    if currentLen + seg.len ≥ targetLen then
      let r : Option ℚ :=
        if seg.len > 0 then jsDiv (targetLen - currentLen) seg.len else some 0
      (r.map (fun q => seg.p1.x + (seg.p2.x - seg.p1.x) * q),
       r.map (fun q => seg.p1.y + (seg.p2.y - seg.p1.y) * q))
    else walkLabel center targetLen rest (currentLen + seg.len)

/-! Handle collision relaxation of the Level-0 `ProcessNode`. -/

/-- Body of one in-place sweep of the relaxation `for` loop: `a` is the
current value of slot `i` (possibly already pushed by the previous pair),
the list holds the remaining slots.  A pair closer than `minGapDeg` is
pushed apart symmetrically around its midpoint to exactly `minGapDeg`,
and the updated right member is what the next pair comparison sees. -/
def sweepAux (minGapDeg a : ℚ) : List ℚ → List ℚ × Bool
  | [] => ([a], false)
  | b :: rest =>
    if |b - a| < minGapDeg then
      let center := (a + b) / 2
      let tail := sweepAux minGapDeg (center + minGapDeg / 2) rest
      ((center - minGapDeg / 2) :: tail.1, true)
    else
      let tail := sweepAux minGapDeg b rest
      (a :: tail.1, tail.2)

/-- One full sweep over the handle angles; returns the updated angles and
whether the sweep changed anything. -/
def sweepStep (minGapDeg : ℚ) : List ℚ → List ℚ × Bool
  | [] => ([], false)
  | a :: rest => sweepAux minGapDeg a rest

/-- The `while (changed && iter < 10)` loop: up to `fuel` sweeps, each
followed by a re-sort; the Boolean is `true` when some sweep reported no
change (the loop converged before exhausting its iteration budget). -/
def relaxLoop (minGapDeg : ℚ) : Nat → List ℚ → List ℚ × Bool
  | 0, l => (l, false)
  | fuel + 1, l =>
    let s := sweepStep minGapDeg l
    let l2 := s.1.insertionSort (fun a b => a ≤ b)
    if s.2 then relaxLoop minGapDeg fuel l2 else (l2, true)

/-- Collision resolution for the handles of one angular section: sort by
angle, then run the relaxation loop with the source's iteration budget of
10. -/
def resolveSection (minGapDeg : ℚ) (angles : List ℚ) : List ℚ × Bool :=
  relaxLoop minGapDeg 10 (angles.insertionSort (fun a b => a ≤ b))

/-- Capacity check of one section: the handles do not fit at the current
diameter when `count * minGapDeg` exceeds the section's angular span. -/
def capacityExceeded (minGapDeg availableSpanDeg : ℚ) (count : Nat) : Bool :=
  count * minGapDeg > availableSpanDeg

/-- Radius requested from the auto-resize when a section overflows:
`count * (minGapPx + 5)` pixels of arc spread over the section's span in
radians (`availableSpanRad` is `availableSpanDeg * π / 180` in the
source; it enters this formula only as an abstract positive quantity). -/
def requiredRadius (availableSpanRad : ℚ) (count : Nat) : ℚ :=
  (count * (25 + 5)) / availableSpanRad

/-- Number of findings of a given rule code. -/
def ruleCount (results : List ValidationResult) (code : String) : Nat :=
  (results.filter (fun r => r.ruleCode == code)).length

/-- Process count over the whole node list, every level included. -/
def processCountAllLevels (d : DFDDiagram) : Nat :=
  (d.nodes.filter (fun n => n.type == .process)).length

/-! Helper lemmas. -/

theorem attachIds_map_stripId (gen : Nat → String) :
    ∀ (k : Nat) (l : List FindingCore), (attachIds gen k l).map stripId = l
  | _, [] => rfl
  | k, c :: rest => by
    simp only [attachIds, List.map_cons, stripId, attachIds_map_stripId gen (k + 1) rest]

theorem attachIds_filter_strip (gen : Nat → String) (p : FindingCore → Bool) :
    ∀ (k : Nat) (l : List FindingCore),
      ((attachIds gen k l).filter (fun r => p (stripId r))).map stripId = l.filter p
  | _, [] => rfl
  | k, c :: rest => by
    have ih := attachIds_filter_strip gen p (k + 1) rest
    simp only [stripId] at ih
    by_cases h : p c <;>
      simp [attachIds, List.filter_cons, stripId, h, ih]

/-- An empty level-0 diagram: `validateDiagram` produces exactly one finding
(D-001) on it, so the `id` fields of two calls become observable. -/
def emptyLevel0Diagram : DFDDiagram := ⟨0, [], []⟩

/-- C1, counterexample: the `id` field of a finding is a fresh
`crypto.randomUUID()` value, so two calls of `validateDiagram` on the same
unchanged snapshot (modelled by two uuid supplies, as two successive
calls consume different segments of the randomness stream) do not yield
identical finding lists: on the empty level-0 diagram the single D-001
finding carries whichever uuid the call drew. -/
theorem validateDiagram_id_field_not_deterministic :
    validateDiagram (fun _ => "c3e6") emptyLevel0Diagram ≠
      validateDiagram (fun _ => "9a1b") emptyLevel0Diagram := by
  simp [validateDiagram, validateCore, level0Findings, level1Findings,
    emptyLevel0Diagram, attachIds]

/-- C1 (amended): `validateDiagram` is a deterministic function of the
diagram snapshot in every field except `id`: for any two uuid supplies
(two calls on the same unchanged snapshot), the finding lists agree in
`ruleCode`, `severity`, `message`, `nodeId` and `edgeId`, in the same
order, with no hidden incremental state; only the `id` fields, drawn
fresh from `crypto.randomUUID()`, differ. -/
theorem validateDiagram_deterministic_up_to_id (gen gen' : Nat → String) (d : DFDDiagram) :
    (validateDiagram gen d).map stripId = (validateDiagram gen' d).map stripId := by
  simp only [validateDiagram, attachIds_map_stripId]

/-- C3: for every side and every offset strictly inside `(0, 100)`, the
rectangular-handle encoding round-trips: `decodePosition (encodePosition
side offset) = (side, offset)` (exactly, over `ℚ`), via the ranges
`[0,25) → top`, `[25,50) → right`, `[50,75) → bottom`, `[75,100] → left`
with linear rescaling inside each range. -/
theorem decodePosition_eval (e : ℚ) (h0 : 0 < e) (h100 : e ≤ 100) :
    decodePosition e =
      if e < 25 then (.top, e / 25 * 100)
      else if e < 50 then (.right, (e - 25) / 25 * 100)
      else if e < 75 then (.bottom, (e - 50) / 25 * 100)
      else (.left, (e - 75) / 25 * 100) := by
  unfold decodePosition clamp100
  rw [if_neg h0.ne', min_eq_right h100, max_eq_right h0.le]
  by_cases h1 : e < 25
  · rw [if_pos ⟨h0.le, h1⟩, if_pos h1]
  · rw [if_neg (fun h => h1 h.2), if_neg h1]
    by_cases h2 : e < 50
    · rw [if_pos ⟨by linarith, h2⟩, if_pos h2]
    · rw [if_neg (fun h => h2 h.2), if_neg h2]
      by_cases h3 : e < 75
      · rw [if_pos ⟨by linarith, h3⟩, if_pos h3]
      · rw [if_neg (fun h => h3 h.2), if_neg h3]

theorem clamp100_of_bounds {x : ℚ} (h0 : 0 ≤ x) (h100 : x ≤ 100) : clamp100 x = x := by
  unfold clamp100
  rw [min_eq_right h100, max_eq_right h0]

theorem decodePosition_encodePosition_roundTrip (side : Side) (offset : ℚ)
    (h0 : 0 < offset) (h100 : offset < 100) :
    decodePosition (encodePosition side offset) = (side, offset) := by
  have hc : clamp100 offset = offset := clamp100_of_bounds h0.le h100.le
  cases side
  case top =>
    have he : encodePosition .top offset = offset / 100 * 25 := by
      unfold encodePosition; rw [hc]
    rw [he, decodePosition_eval _ (by positivity) (by linarith)]
    rw [if_pos (by linarith : offset / 100 * 25 < 25)]
    simp only [Prod.mk.injEq, true_and]
    ring
  case right =>
    have he : encodePosition .right offset = 25 + offset / 100 * 25 := by
      unfold encodePosition; rw [hc]
    rw [he, decodePosition_eval _ (by positivity) (by linarith)]
    rw [if_neg (by linarith : ¬ 25 + offset / 100 * 25 < 25),
      if_pos (by linarith : 25 + offset / 100 * 25 < 50)]
    simp only [Prod.mk.injEq, true_and]
    ring
  case bottom =>
    have he : encodePosition .bottom offset = 50 + offset / 100 * 25 := by
      unfold encodePosition; rw [hc]
    rw [he, decodePosition_eval _ (by positivity) (by linarith)]
    rw [if_neg (by linarith : ¬ 50 + offset / 100 * 25 < 25),
      if_neg (by linarith : ¬ 50 + offset / 100 * 25 < 50),
      if_pos (by linarith : 50 + offset / 100 * 25 < 75)]
    simp only [Prod.mk.injEq, true_and]
    ring
  case left =>
    have he : encodePosition .left offset = 75 + offset / 100 * 25 := by
      unfold encodePosition; rw [hc]
    rw [he, decodePosition_eval _ (by positivity) (by linarith)]
    rw [if_neg (by linarith : ¬ 75 + offset / 100 * 25 < 25),
      if_neg (by linarith : ¬ 75 + offset / 100 * 25 < 50),
      if_neg (by linarith : ¬ 75 + offset / 100 * 25 < 75)]
    simp only [Prod.mk.injEq, true_and]
    ring

/-- C3, witness at `side = left`, `offset = 30`. -/
theorem decodePosition_encodePosition_roundTrip_w :
    (0:ℚ) < 30 ∧ (30:ℚ) < 100 ∧ decodePosition (encodePosition .left 30) = (.left, 30) :=
  ⟨by norm_num, by norm_num,
    decodePosition_encodePosition_roundTrip .left 30 (by norm_num) (by norm_num)⟩

/-- The UI filter exactly as the specification words it: always drop a
D-001 finding when the diagram contains exactly one process node; with
zero edges additionally drop every non-error finding and every finding
whose rule code is N-004, P-001, P-002 or L0-001 even if it is an error;
every other finding passes through unchanged. -/
def keepForUIAsSpecified (d : DFDDiagram) (r : ValidationResult) : Bool :=
  if (d.nodes.filter (fun n => n.type == .process)).length == 1 && r.ruleCode == "D-001" then
    false
  else if d.edges.isEmpty then
    r.severity == .error &&
      !(r.ruleCode == "N-004" || r.ruleCode == "P-001" ||
        r.ruleCode == "P-002" || r.ruleCode == "L0-001")
  else true

/-- C2: `filterValidationForUI` behaves exactly as specified: it filters
the findings with the predicate of the specification (drop D-001 with
exactly one process node; with zero edges drop all non-errors and the
codes N-004 / P-001 / P-002 / L0-001 even when they are errors; pass
everything else through unchanged, preserving order). -/
theorem filterValidationForUI_as_specified (results : List ValidationResult) (d : DFDDiagram) :
    filterValidationForUI results d = results.filter (keepForUIAsSpecified d) := by
  unfold filterValidationForUI
  refine List.filter_congr (fun r _ => ?_)
  unfold keepForUI keepForUIAsSpecified
  by_cases h1 : r.ruleCode = "D-001" <;>
    by_cases h2 : (d.nodes.filter (fun n => n.type == .process)).length = 1 <;>
      by_cases h3 : d.edges = [] <;>
        by_cases h4 : r.ruleCode = "N-004" <;>
          by_cases h5 : r.ruleCode = "P-001" <;>
            by_cases h6 : r.ruleCode = "P-002" <;>
              by_cases h7 : r.ruleCode = "L0-001" <;>
                cases hs : r.severity <;>
                  simp [h1, h2, h3, h4, h5, h6, h7, hs, List.isEmpty_iff,
                    List.length_pos, List.contains, bne]

/-- C6: the manual-mode router produces a two-segment L-shaped path: in
horizontal-first mode it visits `source → (target.x, source.y) → target`
(for source `(0,0)` and target `(100,50)`: `(0,0) → (100,0) → (100,50)`),
in vertical-first mode `source → (source.x, target.y) → target`; with no
stored `arrowDirection` the mode is vertical-first exactly when the
source endpoint's boundary side is `bottom`; and with no recorded
crossings the generated path is just `move, line, line` through those
points (jump arcs are the only possible insertions). -/
theorem manual_router_path_shape (srcSide : Side) (s t : Pt) :
    segPoints (manualSegments .horizontalFirst s t) = [s, ⟨t.x, s.y⟩, t] ∧
    segPoints (manualSegments .verticalFirst s t) = [s, ⟨s.x, t.y⟩, t] ∧
    manualDirection none srcSide =
      (if srcSide = .bottom then .verticalFirst else .horizontalFirst) ∧
    (∀ dir : ManualDir, buildPath (manualSegments dir s t) [] =
      [.move s,
       .line (if dir = .horizontalFirst then ⟨t.x, s.y⟩ else ⟨s.x, t.y⟩),
       .line t]) ∧
    segPoints (manualSegments .horizontalFirst ⟨0, 0⟩ ⟨100, 50⟩) =
      [⟨0, 0⟩, ⟨100, 0⟩, ⟨100, 50⟩] := by
  refine ⟨rfl, rfl, ?_, ?_, rfl⟩
  · cases srcSide <;> rfl
  · intro dir
    cases dir <;>
      simp [buildPath, manualSegments, segCmds, jumpsForSegment, List.insertionSort,
        List.enum, List.enumFrom]

/-- C8, counterexample: with coincident endpoints the manual-mode label
computation takes the `offsetDistance <= horizontalLength` branch with
`horizontalLength = 0` and divides `0 / 0` (a `NaN` x-coordinate in
JavaScript, `none` here) — the source checks no segment length before
this division, for any `labelOffset` in `[0.1, 0.9]` (here `0.5`). -/
theorem manualLabelPos_nan_at_coincident :
    (manualLabelPos .horizontalFirst ⟨0, 0⟩ ⟨0, 0⟩ (1/2)).1 = none := by
  norm_num [manualLabelPos, jsDiv]

/-- C8 (amended): the smart-branch label walk guards every division with
`seg.len > 0` and always returns finite coordinates; the manual-branch
computation divides by the horizontal/vertical segment length without
such a check, yet still returns finite label coordinates for every
`labelOffset` in `[0.1, 0.9]` provided the two endpoints are distinct —
only coincident endpoints (a zero-length L-path) reach a division by
zero there. -/
theorem label_position_finite (dir : ManualDir) (s t : Pt) (lo : ℚ)
    (hlo1 : 1/10 ≤ lo) (hlo2 : lo ≤ 9/10) (hst : s ≠ t) :
    ((manualLabelPos dir s t lo).1.isSome ∧ (manualLabelPos dir s t lo).2.isSome) ∧
    ∀ (center : Pt) (targetLen : ℚ) (segs : List PathSeg) (currentLen : ℚ),
      (walkLabel center targetLen segs currentLen).1.isSome ∧
      (walkLabel center targetLen segs currentLen).2.isSome := by
  have hxa : (0:ℚ) ≤ |t.x - s.x| := abs_nonneg _
  have hya : (0:ℚ) ≤ |t.y - s.y| := abs_nonneg _
  have hlo0 : (0:ℚ) < lo := lt_of_lt_of_le (by norm_num) hlo1
  have hne : ¬ (t.x = s.x ∧ t.y = s.y) := by
    intro h
    apply hst
    cases s; cases t
    simp only [Pt.mk.injEq]
    exact ⟨h.1.symm, h.2.symm⟩
  constructor
  · cases dir
    case horizontalFirst =>
      simp only [manualLabelPos]
      by_cases hbr : (|t.x - s.x| + |t.y - s.y|) * lo ≤ |t.x - s.x|
      · rw [if_pos hbr]
        have hx0 : ¬ |t.x - s.x| = 0 := by
          intro h0
          rw [h0] at hbr
          have hv : |t.y - s.y| ≤ 0 := by nlinarith
          exact hne ⟨sub_eq_zero.mp (abs_eq_zero.mp h0),
            sub_eq_zero.mp (abs_eq_zero.mp (le_antisymm hv hya))⟩
        simp [jsDiv, hx0]
      · rw [if_neg hbr]
        have hy0 : ¬ |t.y - s.y| = 0 := by
          intro h0
          apply hbr
          rw [h0]
          nlinarith
        simp [jsDiv, hy0]
    case verticalFirst =>
      simp only [manualLabelPos]
      by_cases hbr : (|t.y - s.y| + |t.x - s.x|) * lo ≤ |t.y - s.y|
      · rw [if_pos hbr]
        have hy0 : ¬ |t.y - s.y| = 0 := by
          intro h0
          rw [h0] at hbr
          have hv : |t.x - s.x| ≤ 0 := by nlinarith
          exact hne ⟨sub_eq_zero.mp (abs_eq_zero.mp (le_antisymm hv hxa)),
            sub_eq_zero.mp (abs_eq_zero.mp h0)⟩
        simp [jsDiv, hy0]
      · rw [if_neg hbr]
        have hx0 : ¬ |t.x - s.x| = 0 := by
          intro h0
          apply hbr
          rw [h0]
          nlinarith
        simp [jsDiv, hx0]
  · intro center targetLen segs
    induction segs with
    | nil => intro c; simp [walkLabel]
    | cons seg rest ih =>
      intro c
      by_cases hbr : c + seg.len ≥ targetLen
      · by_cases hlen : seg.len > 0 <;>
          simp [walkLabel, hbr, hlen, jsDiv, ne_of_gt]
      · simpa [walkLabel, hbr] using ih (c + seg.len)

/-- C8, witness of the amended theorem at distinct endpoints `(0,0)`,
`(100,50)` with `labelOffset = 1/2`. -/
theorem label_position_finite_w :
    (1:ℚ)/10 ≤ 1/2 ∧ (1:ℚ)/2 ≤ 9/10 ∧ (Pt.mk 0 0 ≠ Pt.mk 100 50) ∧
    (manualLabelPos .horizontalFirst ⟨0, 0⟩ ⟨100, 50⟩ (1/2)).1.isSome ∧
    (manualLabelPos .horizontalFirst ⟨0, 0⟩ ⟨100, 50⟩ (1/2)).2.isSome :=
  ⟨by norm_num, by norm_num, by simp,
    (label_position_finite .horizontalFirst ⟨0, 0⟩ ⟨100, 50⟩ (1/2)
      (by norm_num) (by norm_num) (by simp)).1.1,
    (label_position_finite .horizontalFirst ⟨0, 0⟩ ⟨100, 50⟩ (1/2)
      (by norm_num) (by norm_num) (by simp)).1.2⟩

theorem chain'_and {α : Type _} {R S : α → α → Prop} :
    ∀ {l : List α}, l.Chain' R → l.Chain' S → l.Chain' (fun a b => R a b ∧ S a b)
  | [], _, _ => List.chain'_nil
  | [a], _, _ => List.chain'_singleton a
  | _ :: _ :: _, hr, hs => by
    rw [List.chain'_cons] at hr hs ⊢
    exact ⟨⟨hr.1, hs.1⟩, chain'_and hr.2 hs.2⟩

theorem sweepAux_of_not_changed (g : ℚ) :
    ∀ (a : ℚ) (l : List ℚ), (sweepAux g a l).2 = false →
      (sweepAux g a l).1 = a :: l ∧ (a :: l).Chain' (fun x y => ¬ |y - x| < g)
  | _, [], _ => ⟨rfl, List.chain'_singleton _⟩
  | a, b :: rest, h => by
    by_cases hab : |b - a| < g
    · simp [sweepAux, hab] at h
    · simp only [sweepAux, if_neg hab] at h ⊢
      obtain ⟨h1, h2⟩ := sweepAux_of_not_changed g b rest h
      exact ⟨by rw [h1], List.chain'_cons.mpr ⟨hab, h2⟩⟩

theorem sweepStep_of_not_changed (g : ℚ) (l : List ℚ) (h : (sweepStep g l).2 = false) :
    (sweepStep g l).1 = l ∧ l.Chain' (fun x y => ¬ |y - x| < g) := by
  cases l with
  | nil => exact ⟨rfl, List.chain'_nil⟩
  | cons a rest => exact sweepAux_of_not_changed g a rest h

theorem relaxLoop_converged (g : ℚ) :
    ∀ (fuel : Nat) (l : List ℚ), l.Sorted (fun a b => a ≤ b) →
      (relaxLoop g fuel l).2 = true →
      (relaxLoop g fuel l).1.Sorted (fun a b => a ≤ b) ∧
      (relaxLoop g fuel l).1.Chain' (fun x y => ¬ |y - x| < g)
  | 0, l, _, h => by simp [relaxLoop] at h
  | fuel + 1, l, hs, h => by
    by_cases hch : (sweepStep g l).2
    · simp only [relaxLoop, if_pos hch] at h ⊢
      exact relaxLoop_converged g fuel _ (List.sorted_insertionSort _ _) h
    · simp only [Bool.not_eq_true] at hch
      obtain ⟨heq, hchain⟩ := sweepStep_of_not_changed g l hch
      simp only [relaxLoop, hch, Bool.false_eq_true, if_false, heq,
        hs.insertionSort_eq]
      exact ⟨hs, hchain⟩

/-- C9 (amended): after the iterative pairwise collision relaxation, IF the
loop converged before exhausting its 10-iteration budget then any two
handles in the same angular section are at least the minimum angular
spacing apart; and whenever `count * minGapDeg` exceeds the section's
span, the flagged required diameter gives the section an arc length of
`count * 30` pixels, enough to fit `count` times the 25-pixel minimum
spacing.  (When the budget runs out without convergence, gaps may remain
below the minimum with no resize flag — see the counterexample.) -/
theorem relaxation_min_spacing (g spanRad : ℚ) (count : Nat) (angles : List ℚ)
    (hg : 0 ≤ g) (hspan : 0 < spanRad) :
    ((resolveSection g angles).2 = true →
      (resolveSection g angles).1.Pairwise (fun a b => g ≤ |b - a|)) ∧
    spanRad * requiredRadius spanRad count = count * (25 + 5) ∧
    (count : ℚ) * 25 ≤ spanRad * requiredRadius spanRad count := by
  refine ⟨?_, ?_, ?_⟩
  · intro hconv
    obtain ⟨hsorted, hchain⟩ :=
      relaxLoop_converged g 10 _ (List.sorted_insertionSort _ angles) hconv
    have hchain2 : (resolveSection g angles).1.Chain' (fun a b => g ≤ b - a) := by
      refine (chain'_and hsorted.chain' hchain).imp ?_
      intro a b hab
      have habs : |b - a| = b - a := abs_of_nonneg (sub_nonneg.mpr hab.1)
      rw [habs] at hab
      exact not_lt.mp hab.2
    haveI : IsTrans ℚ (fun a b => g ≤ b - a) :=
      ⟨fun a b c h1 h2 => by
        have h1' : g ≤ b - a := h1
        have h2' : g ≤ c - b := h2
        show g ≤ c - a
        linarith⟩
    have hpw := (List.chain'_iff_pairwise).mp hchain2
    exact hpw.imp (fun hab => le_trans hab (le_abs_self _))
  · unfold requiredRadius
    field_simp
  · unfold requiredRadius
    field_simp
    nlinarith [Nat.cast_nonneg (α := ℚ) count]

/-- C9, witness of the amended theorem: with minimum angular spacing 10 the
handles `[0, 20, 40]` converge (first sweep changes nothing), so every
pair ends at least 10 apart; and the capacity arithmetic at
`spanRad = 1`, `count = 2`. -/
theorem relaxation_min_spacing_w :
    (0:ℚ) ≤ 10 ∧ (0:ℚ) < 1 ∧
    (resolveSection 10 [0, 20, 40]).1.Pairwise (fun a b => 10 ≤ |b - a|) ∧
    (1:ℚ) * requiredRadius 1 2 = 2 * (25 + 5) ∧
    (2 : ℚ) * 25 ≤ 1 * requiredRadius 1 2 := by
  have h := relaxation_min_spacing 10 1 2 [0, 20, 40] (by norm_num) (by norm_num)
  refine ⟨by norm_num, by norm_num, h.1 ?_, h.2.1, h.2.2⟩
  norm_num [resolveSection, relaxLoop, sweepStep, sweepAux, List.insertionSort,
    List.orderedInsert, abs_lt]

/-- C9, counterexample: three coincident handles in one section (reachable
through manual per-edge angle offsets) never reach the minimum spacing —
the loop keeps halving the deficit and still reports changes when the
10-iteration budget runs out (`converged = false`), two handles stay
strictly closer than the minimum spacing 1, yet the capacity check
`3 * minGapDeg > 45` does not flag the node for resize (a spacing of 1
degree arises from the source's `25px / radius` conversion at a legal
diameter). -/
theorem relaxation_gap_below_min_without_resize :
    (resolveSection 1 [0, 0, 0]).2 = false ∧
    ¬ (resolveSection 1 [0, 0, 0]).1.Pairwise (fun a b => 1 ≤ |b - a|) ∧
    capacityExceeded 1 45 3 = false := by
  refine ⟨?_, ?_, ?_⟩
  · norm_num [resolveSection, relaxLoop, sweepStep, sweepAux, List.insertionSort,
      List.orderedInsert, abs_lt]
  · norm_num [resolveSection, relaxLoop, sweepStep, sweepAux, List.insertionSort,
      List.orderedInsert, abs_lt, List.pairwise_cons]
  · norm_num [capacityExceeded]

/-- What the jump logic actually records (the specification amended by the
counterexample): a crossing between one of the edge's own VERTICAL
segments and a HORIZONTAL segment of another edge whose stored direction
is not `smart`, strictly inside both extents with a `jumpRadius` margin
at each end. -/
def isRecordedCrossing (mySegs : List Seg) (others : List OtherEdge) (c : Crossing) : Prop :=
  ∃ oe ∈ others, ¬ oe.stored = some .smart ∧
  ∃ i ms, (i, ms) ∈ mySegs.enum ∧
  ∃ os ∈ getEdgeSegments oe,
    mySegTy ms = .v ∧ os.ty = .h ∧
    min ms.p1.y ms.p2.y + jumpRadius < os.p1.y ∧
    os.p1.y < max ms.p1.y ms.p2.y - jumpRadius ∧
    min os.p1.x os.p2.x + jumpRadius < ms.p1.x ∧
    ms.p1.x < max os.p1.x os.p2.x - jumpRadius ∧
    c = ⟨|os.p1.y - ms.p1.y|, ⟨ms.p1.x, os.p1.y⟩, i⟩

theorem mem_segCrossing {i : Nat} {ms : Seg} {os : TSeg} {c : Crossing} :
    c ∈ segCrossing i ms os ↔
      mySegTy ms = .v ∧ os.ty = .h ∧
      min ms.p1.y ms.p2.y + jumpRadius < os.p1.y ∧
      os.p1.y < max ms.p1.y ms.p2.y - jumpRadius ∧
      min os.p1.x os.p2.x + jumpRadius < ms.p1.x ∧
      ms.p1.x < max os.p1.x os.p2.x - jumpRadius ∧
      c = ⟨|os.p1.y - ms.p1.y|, ⟨ms.p1.x, os.p1.y⟩, i⟩ := by
  cases hty : mySegTy ms <;> cases hoty : os.ty <;>
    · simp only [segCrossing, hty, hoty]
      norm_num
      by_cases hb : min ms.p1.y ms.p2.y + jumpRadius < os.p1.y ∧
          os.p1.y < max ms.p1.y ms.p2.y - jumpRadius ∧
          min os.p1.x os.p2.x + jumpRadius < ms.p1.x ∧
          ms.p1.x < max os.p1.x os.p2.x - jumpRadius <;>
        simp [hb] <;> tauto

theorem mem_computeIntersections {mySegs : List Seg} {others : List OtherEdge} {c : Crossing} :
    c ∈ computeIntersections mySegs others ↔ isRecordedCrossing mySegs others c := by
  unfold computeIntersections isRecordedCrossing
  simp only [List.mem_flatMap]
  constructor
  · rintro ⟨oe, hoe, hc⟩
    by_cases hsm : oe.stored == some .smart
    · simp [hsm] at hc
    · simp only [hsm, Bool.false_eq_true, if_false, List.mem_flatMap] at hc
      obtain ⟨⟨i, ms⟩, him, os, hos, hcs⟩ := hc
      rw [mem_segCrossing] at hcs
      exact ⟨oe, hoe, beq_eq_false_iff_ne.mp (by simpa using hsm), i, ms, him, os, hos, hcs⟩
  · rintro ⟨oe, hoe, hsm, i, ms, him, os, hos, hcs⟩
    refine ⟨oe, hoe, ?_⟩
    have hsm' : (oe.stored == some ArrowDir.smart) = false :=
      beq_eq_false_iff_ne.mpr hsm
    simp only [hsm', Bool.false_eq_true, if_false, List.mem_flatMap]
    exact ⟨(i, ms), him, os, hos, mem_segCrossing.mpr hcs⟩

/-- Radii of the arc commands of a path, in path order. -/
def arcRadii (cmds : List PathCmd) : List ℚ :=
  cmds.filterMap (fun c => match c with | .arc r _ => some r | _ => none)

theorem arcRadii_append (l1 l2 : List PathCmd) :
    arcRadii (l1 ++ l2) = arcRadii l1 ++ arcRadii l2 :=
  List.filterMap_append l1 l2 _

theorem arcRadii_flatMap_ones (f : Crossing → List PathCmd)
    (hf : ∀ j, arcRadii (f j) = [jumpRadius]) :
    ∀ js : List Crossing, arcRadii (js.flatMap f) = List.replicate js.length jumpRadius
  | [] => rfl
  | j :: rest => by
    rw [List.flatMap_cons, arcRadii_append, hf, arcRadii_flatMap_ones f hf rest]
    simp [List.replicate_succ]

theorem arcRadii_segCmds (inters : List Crossing) (idx : Nat) (seg : Seg) :
    arcRadii (segCmds inters idx seg) =
      List.replicate (jumpsForSegment inters idx).length jumpRadius := by
  unfold segCmds
  rw [arcRadii_append]
  have h2 : arcRadii [PathCmd.line seg.p2] = [] := rfl
  rw [h2, List.append_nil]
  apply arcRadii_flatMap_ones
  intro j
  by_cases h : (seg.p1.y == seg.p2.y) <;> simp [h, arcRadii]

theorem arcRadii_move_cons (p : Pt) (rest : List PathCmd) :
    arcRadii (.move p :: rest) = arcRadii rest := rfl

theorem jumpsForSegment_length (inters : List Crossing) (idx : Nat) :
    (jumpsForSegment inters idx).length =
      (inters.filter (fun i => i.segmentIndex == idx)).length := by
  unfold jumpsForSegment
  exact List.length_insertionSort _ _

/-- C7 (amended): the jump logic records exactly the perpendicular
crossings between one of the edge's own VERTICAL segments and a
horizontal segment of another edge whose stored direction is not
`smart`, strictly inside both extents with a `jumpRadius = 6` margin at
each end (own horizontal segments never record crossings — vertical
lines jump over horizontal ones); for each recorded crossing exactly one
semicircular arc of radius 6 is inserted into the path; and the
crossings of a segment are inserted ordered by distance from the
segment's start. -/
theorem jump_crossing_insertion (dir : ManualDir) (s t : Pt) (others : List OtherEdge) :
    (∀ c, c ∈ computeIntersections (manualSegments dir s t) others ↔
      isRecordedCrossing (manualSegments dir s t) others c) ∧
    arcRadii (buildPath (manualSegments dir s t)
        (computeIntersections (manualSegments dir s t) others)) =
      List.replicate (computeIntersections (manualSegments dir s t) others).length
        jumpRadius ∧
    ∀ (inters : List Crossing) (idx : Nat),
      (jumpsForSegment inters idx).Sorted (fun a b => a.dist ≤ b.dist) := by
  refine ⟨fun c => mem_computeIntersections, ?_, ?_⟩
  · have hidx : ∀ c ∈ computeIntersections (manualSegments dir s t) others,
        (c.segmentIndex == 0) = true ∨ (c.segmentIndex == 1) = true := by
      intro c hc
      rw [mem_computeIntersections] at hc
      obtain ⟨oe, _, _, i, ms, him, os, _, _, _, _, _, _, _, hc⟩ := hc
      subst hc
      cases dir <;>
        simp [manualSegments, List.enum, List.enumFrom] at him <;>
          rcases him with ⟨h1, _⟩ | ⟨h1, _⟩ <;> simp [h1]
    generalize hI : computeIntersections (manualSegments dir s t) others = I at hidx ⊢
    have hsum : (jumpsForSegment I 0).length + (jumpsForSegment I 1).length = I.length := by
      rw [jumpsForSegment_length, jumpsForSegment_length,
        ← List.countP_eq_length_filter, ← List.countP_eq_length_filter]
      rw [List.length_eq_countP_add_countP (fun i => i.segmentIndex == 0) I]
      congr 1
      apply List.countP_congr
      intro c hc
      rcases hidx c hc with h | h
      · simp_all
      · simp_all
    cases dir <;>
      · simp only [buildPath, manualSegments, List.head?, List.enum, List.enumFrom,
          List.flatMap_cons, List.flatMap_nil, List.append_nil, List.singleton_append]
        rw [arcRadii_move_cons, arcRadii_append, arcRadii_segCmds, arcRadii_segCmds,
          ← List.replicate_add, hsum]
  · haveI : IsTotal Crossing (fun a b => a.dist ≤ b.dist) :=
      ⟨fun a b => le_total a.dist b.dist⟩
    haveI : IsTrans Crossing (fun a b => a.dist ≤ b.dist) :=
      ⟨fun _ _ _ hab hbc => le_trans hab hbc⟩
    exact fun inters idx => List.sorted_insertionSort _ _

/-- C7, counterexample: the claim also demands a recorded crossing when the
edge's own segment is HORIZONTAL and the other edge's segment vertical;
the source records nothing then ("Convention: Vertical lines jump over
Horizontal lines").  The manual edge `(0,0) → (100,50)` (horizontal
first) has its horizontal first segment `(0,0)–(100,0)` crossed at
`(60,0)` by the vertical segment `(60,-20)–(60,30)` of another manual
edge, strictly inside both extents with margin 6 on every side, yet the
recorded crossing list is empty. -/
theorem horizontal_segment_crossing_not_recorded :
    mySegTy ⟨⟨0, 0⟩, ⟨100, 0⟩⟩ = .h ∧
    (manualSegments .horizontalFirst ⟨0, 0⟩ ⟨100, 50⟩).head? =
      some ⟨⟨0, 0⟩, ⟨100, 0⟩⟩ ∧
    getEdgeSegments ⟨none, ⟨50, -20⟩, ⟨60, 30⟩⟩ =
      [⟨⟨50, -20⟩, ⟨60, -20⟩, .h⟩, ⟨⟨60, -20⟩, ⟨60, 30⟩, .v⟩] ∧
    ((0:ℚ) + jumpRadius < 60 ∧ (60:ℚ) < 100 - jumpRadius ∧
      (-20:ℚ) + jumpRadius < 0 ∧ (0:ℚ) < 30 - jumpRadius) ∧
    computeIntersections (manualSegments .horizontalFirst ⟨0, 0⟩ ⟨100, 50⟩)
      [⟨none, ⟨50, -20⟩, ⟨60, 30⟩⟩] = [] := by
  refine ⟨by norm_num [mySegTy], rfl, rfl, by norm_num [jumpRadius], ?_⟩
  norm_num [computeIntersections, manualSegments, getEdgeSegments, segCrossing, mySegTy,
    jumpRadius, List.enum, List.enumFrom]

theorem edgeId_none_nodeRuleFindings (n : DFDNode) :
    ∀ r ∈ nodeRuleFindings n, r.edgeId = none := by
  intro r hr
  simp [nodeRuleFindings] at hr
  rcases hr with ⟨-, h | h⟩ | ⟨-, h⟩ <;> simp [h]

theorem edgeId_none_connectivityFindings (edges : List DFDEdge) (n : DFDNode) :
    ∀ r ∈ connectivityFindings edges n, r.edgeId = none := by
  intro r hr
  simp [connectivityFindings] at hr
  rcases hr with ⟨-, h⟩ | ⟨-, ⟨-, h⟩ | ⟨-, h⟩ | ⟨-, h⟩⟩ <;> simp [h]

theorem edgeId_none_level0Findings (d : DFDDiagram) :
    ∀ r ∈ level0Findings d, r.edgeId = none := by
  intro r hr
  unfold level0Findings at hr
  by_cases hl : (d.level == 0) = true
  case neg => simp [hl] at hr
  case pos =>
    rw [if_pos hl] at hr
    rcases List.mem_append.mp hr with h | h
    · by_cases hc : ((d.nodes.filter (fun n => n.type == .process)).length != 1) = true
      · rw [if_pos hc] at h
        simp at h
        simp [h]
      · rw [if_neg hc] at h
        cases hh : (d.nodes.filter (fun n => n.type == .process)).head? with
        | none => rw [hh] at h; simp at h
        | some p =>
          rw [hh] at h
          simp at h
          rcases h with ⟨-, h⟩
          simp [h]
    · rcases List.mem_map.mp h with ⟨s, -, hs⟩
      simp [← hs]

theorem edgeId_none_level1Findings (d : DFDDiagram) :
    ∀ r ∈ level1Findings d, r.edgeId = none := by
  intro r hr
  unfold level1Findings at hr
  by_cases hl : (d.level == 1) = true
  case neg => simp [hl] at hr
  case pos =>
    rw [if_pos hl] at hr
    rcases List.mem_flatten.mp hr with ⟨l, hl2, hrl⟩
    rcases List.mem_map.mp hl2 with ⟨p, -, hp⟩
    subst hp
    by_cases hn : (!isL1ProcessNumber p.processNumber) = true
    · rw [if_pos hn] at hrl
      simp at hrl
      simp [hrl]
    · rw [if_neg hn] at hrl
      simp at hrl

theorem edgeId_edgeRuleFindings (nodes : List DFDNode) (e : DFDEdge) :
    ∀ r ∈ edgeRuleFindings nodes e, r.edgeId = some e.id := by
  intro r hr
  unfold edgeRuleFindings at hr
  rcases List.mem_append.mp hr with h | h
  · by_cases hb : strBlank e.label = true
    · rw [if_pos hb] at h; simp at h; simp [h]
    · rw [if_neg hb] at h; simp at h
  · cases hs : nodeMapGet nodes e.sourceNodeId with
    | none =>
      rw [hs] at h
      cases ht : nodeMapGet nodes e.targetNodeId <;> rw [ht] at h <;>
        simp at h <;> simp [h]
    | some s =>
      rw [hs] at h
      cases ht : nodeMapGet nodes e.targetNodeId with
      | none => rw [ht] at h; simp at h; simp [h]
      | some t =>
        rw [ht] at h
        simp at h
        rcases h with ⟨-, h⟩ | ⟨-, h⟩ | ⟨-, h⟩ <;> simp [h]

theorem flatMap_edgeRules_filter (nodes : List DFDNode) :
    ∀ (edges : List DFDEdge) (e : DFDEdge), e ∈ edges → (edges.map DFDEdge.id).Nodup →
      (edges.flatMap (edgeRuleFindings nodes)).filter (fun c => c.edgeId == some e.id)
        = edgeRuleFindings nodes e
  | [], e, he, _ => absurd he (List.not_mem_nil e)
  | f :: rest, e, he, hn => by
    rw [List.map_cons, List.nodup_cons] at hn
    rw [List.flatMap_cons, List.filter_append]
    rcases List.mem_cons.mp he with heq | hmem
    · subst heq
      have hself : (edgeRuleFindings nodes e).filter (fun c => c.edgeId == some e.id)
          = edgeRuleFindings nodes e :=
        List.filter_eq_self.mpr (fun c hc => by
          simp [edgeId_edgeRuleFindings nodes e c hc])
      have hrest : (rest.flatMap (edgeRuleFindings nodes)).filter
          (fun c => c.edgeId == some e.id) = [] := by
        rw [List.filter_eq_nil_iff]
        intro c hc
        rcases List.mem_flatMap.mp hc with ⟨e2, he2, hce2⟩
        have hcid : c.edgeId = some e2.id := edgeId_edgeRuleFindings nodes e2 c hce2
        have hne : ¬ e2.id = e.id := fun hEq =>
          hn.1 (hEq ▸ List.mem_map_of_mem DFDEdge.id he2)
        simp [hcid, hne]
      rw [hself, hrest, List.append_nil]
    · have hfid : ¬ f.id = e.id := fun hEq =>
        hn.1 (hEq ▸ List.mem_map_of_mem DFDEdge.id hmem)
      have hf : (edgeRuleFindings nodes f).filter (fun c => c.edgeId == some e.id) = [] := by
        rw [List.filter_eq_nil_iff]
        intro c hc
        simp [edgeId_edgeRuleFindings nodes f c hc, hfid]
      rw [hf, List.nil_append]
      exact flatMap_edgeRules_filter nodes rest e hmem hn.2

theorem validateCore_filter_edgeId (d : DFDDiagram) (e : DFDEdge)
    (he : e ∈ d.edges) (hn : (d.edges.map DFDEdge.id).Nodup) :
    (validateCore d).filter (fun c => c.edgeId == some e.id) = edgeRuleFindings d.nodes e := by
  unfold validateCore
  rw [List.filter_append, List.filter_append, List.filter_append, List.filter_append]
  have hnil : ∀ (l : List FindingCore), (∀ r ∈ l, r.edgeId = none) →
      l.filter (fun c => c.edgeId == some e.id) = [] := fun l hl => by
    rw [List.filter_eq_nil_iff]
    intro c hc
    simp [hl c hc]
  rw [hnil (d.nodes.flatMap nodeRuleFindings) (fun r hr => by
      rcases List.mem_flatMap.mp hr with ⟨n, -, hrn⟩
      exact edgeId_none_nodeRuleFindings n r hrn),
    hnil (d.nodes.flatMap (connectivityFindings d.edges)) (fun r hr => by
      rcases List.mem_flatMap.mp hr with ⟨n, -, hrn⟩
      exact edgeId_none_connectivityFindings d.edges n r hrn),
    hnil (level0Findings d) (edgeId_none_level0Findings d),
    hnil (level1Findings d) (edgeId_none_level1Findings d),
    flatMap_edgeRules_filter d.nodes d.edges e he hn]
  simp

theorem validateDiagram_filter_edgeId (gen : Nat → String) (d : DFDDiagram) (e : DFDEdge)
    (he : e ∈ d.edges) (hn : (d.edges.map DFDEdge.id).Nodup) :
    ((validateDiagram gen d).filter (fun r => r.edgeId == some e.id)).map
        (fun r => (r.ruleCode, r.severity))
      = (edgeRuleFindings d.nodes e).map (fun c => (c.ruleCode, c.severity)) := by
  unfold validateDiagram
  have h := attachIds_filter_strip gen (fun c => c.edgeId == some e.id) 0 (validateCore d)
  rw [validateCore_filter_edgeId d e he hn] at h
  have hfun : (fun (r : ValidationResult) => (stripId r).edgeId == some e.id)
      = (fun r => r.edgeId == some e.id) := rfl
  rw [hfun] at h
  calc ((attachIds gen 0 (validateCore d)).filter (fun r => r.edgeId == some e.id)).map
          (fun r => (r.ruleCode, r.severity))
      = (((attachIds gen 0 (validateCore d)).filter
          (fun r => r.edgeId == some e.id)).map stripId).map
            (fun c => (c.ruleCode, c.severity)) := by
        rw [List.map_map]; rfl
    _ = (edgeRuleFindings d.nodes e).map (fun c => (c.ruleCode, c.severity)) := by rw [h]

/-- C4: for every edge whose source or target node id does not resolve
(and whose id is not shared with another edge), `validateDiagram` emits
an E-002 error finding carrying that edge's id, and the only other
finding that can carry that edge's id is the independent E-001
blank-label check — the per-edge type checks E-003 / E-004 / E-005 are
skipped for it. -/
theorem dangling_edge_E002 (gen : Nat → String) (d : DFDDiagram) (e : DFDEdge)
    (he : e ∈ d.edges) (hn : (d.edges.map DFDEdge.id).Nodup)
    (hd : nodeMapGet d.nodes e.sourceNodeId = none ∨
      nodeMapGet d.nodes e.targetNodeId = none) :
    ((validateDiagram gen d).filter (fun r => r.edgeId == some e.id)).map
        (fun r => (r.ruleCode, r.severity))
      = (if strBlank e.label then [("E-001", Severity.error)] else [])
        ++ [("E-002", Severity.error)] := by
  rw [validateDiagram_filter_edgeId gen d e he hn]
  unfold edgeRuleFindings
  rcases hd with h | h
  · rw [h]
    by_cases hb : strBlank e.label = true <;> simp [hb]
  · cases hs : nodeMapGet d.nodes e.sourceNodeId with
    | none =>
      by_cases hb : strBlank e.label = true <;> simp [hb]
    | some s =>
      rw [h]
      by_cases hb : strBlank e.label = true <;> simp [hb]

/-- The witness diagram for C4: one labeled edge whose endpoints resolve to
no node. -/
def danglingEdge : DFDEdge := ⟨"e1", "flow", "missing1", "missing2", 0, none, none, none, none⟩

/-- Diagram holding only `danglingEdge`. -/
def danglingDiagram : DFDDiagram := ⟨0, [], [danglingEdge]⟩

/-- C4, witness on `danglingDiagram`. -/
theorem dangling_edge_E002_w :
    ((validateDiagram (fun _ => "u") danglingDiagram).filter
        (fun r => r.edgeId == some "e1")).map (fun r => (r.ruleCode, r.severity))
      = [("E-002", Severity.error)] := by
  have h := dangling_edge_E002 (fun _ => "u") danglingDiagram danglingEdge
    (by simp [danglingDiagram]) (by simp [danglingDiagram]) (Or.inl rfl)
  simpa [danglingEdge, danglingDiagram, strBlank, jsTrim] using h

/-- C5: for every edge with a non-blank label whose two endpoints resolve
(and whose id is not shared with another edge): if both endpoints are
Entity nodes, the findings carrying that edge's id are exactly one E-003
error; if exactly one endpoint is an Entity and the other a DataStore
(either direction), they are exactly one E-005 error; no other rule code
co-fires for that edge. -/
theorem edge_type_rules_exact (gen : Nat → String) (d : DFDDiagram) (e : DFDEdge)
    (he : e ∈ d.edges) (hn : (d.edges.map DFDEdge.id).Nodup)
    (hl : strBlank e.label = false) (s t : DFDNode)
    (hs : nodeMapGet d.nodes e.sourceNodeId = some s)
    (ht : nodeMapGet d.nodes e.targetNodeId = some t) :
    (s.type = .entity → t.type = .entity →
      ((validateDiagram gen d).filter (fun r => r.edgeId == some e.id)).map
          (fun r => (r.ruleCode, r.severity)) = [("E-003", Severity.error)]) ∧
    ((s.type = .entity ∧ t.type = .datastore) ∨ (s.type = .datastore ∧ t.type = .entity) →
      ((validateDiagram gen d).filter (fun r => r.edgeId == some e.id)).map
          (fun r => (r.ruleCode, r.severity)) = [("E-005", Severity.error)]) := by
  constructor
  · intro hse hte
    rw [validateDiagram_filter_edgeId gen d e he hn]
    unfold edgeRuleFindings
    rw [hs, ht]
    simp [hl, hse, hte]
  · intro hcase
    rw [validateDiagram_filter_edgeId gen d e he hn]
    unfold edgeRuleFindings
    rw [hs, ht]
    rcases hcase with ⟨hse, hte⟩ | ⟨hse, hte⟩ <;> simp [hl, hse, hte]

/-- Witness nodes and diagrams for C5: an Entity→Entity edge and an
Entity→DataStore edge. -/
def entityA : DFDNode := ⟨"n1", .entity, "A", 0, 0, 0, "", "", none, none, none⟩

/-- Second witness entity. -/
def entityB : DFDNode := ⟨"n2", .entity, "B", 0, 0, 0, "", "", none, none, none⟩

/-- Witness data store. -/
def storeD1 : DFDNode := ⟨"n3", .datastore, "S", 0, 0, 0, "", "D1", none, none, none⟩

/-- Entity→Entity witness diagram. -/
def entityEntityDiagram : DFDDiagram :=
  ⟨0, [entityA, entityB], [⟨"eA", "flow", "n1", "n2", 0, none, none, none, none⟩]⟩

/-- Entity→DataStore witness diagram. -/
def entityStoreDiagram : DFDDiagram :=
  ⟨0, [entityA, storeD1], [⟨"eB", "flow", "n1", "n3", 0, none, none, none, none⟩]⟩

/-- C5, witness: E-003 on the Entity→Entity diagram and E-005 on the
Entity→DataStore diagram. -/
theorem edge_type_rules_exact_w :
    ((validateDiagram (fun _ => "u") entityEntityDiagram).filter
        (fun r => r.edgeId == some "eA")).map (fun r => (r.ruleCode, r.severity))
      = [("E-003", Severity.error)] ∧
    ((validateDiagram (fun _ => "u") entityStoreDiagram).filter
        (fun r => r.edgeId == some "eB")).map (fun r => (r.ruleCode, r.severity))
      = [("E-005", Severity.error)] := by
  constructor
  · have h := (edge_type_rules_exact (fun _ => "u") entityEntityDiagram
      ⟨"eA", "flow", "n1", "n2", 0, none, none, none, none⟩
      (by simp [entityEntityDiagram]) (by decide) (by decide)
      entityA entityB (by decide) (by decide)).1 rfl rfl
    simpa using h
  · have h := (edge_type_rules_exact (fun _ => "u") entityStoreDiagram
      ⟨"eB", "flow", "n1", "n3", 0, none, none, none, none⟩
      (by simp [entityStoreDiagram]) (by decide) (by decide)
      entityA storeD1 (by decide) (by decide)).2 (Or.inl ⟨rfl, rfl⟩)
    simpa using h

theorem ruleCount_validateDiagram (gen : Nat → String) (d : DFDDiagram) (code : String) :
    ruleCount (validateDiagram gen d) code
      = ((validateCore d).filter (fun c => c.ruleCode == code)).length := by
  unfold ruleCount validateDiagram
  have h := attachIds_filter_strip gen (fun c => c.ruleCode == code) 0 (validateCore d)
  have hfun : (fun (r : ValidationResult) => (stripId r).ruleCode == code)
      = (fun r => r.ruleCode == code) := rfl
  rw [hfun] at h
  rw [← h, List.length_map]

theorem length_filter_flatMap {α : Type _} (f : α → List FindingCore)
    (p : FindingCore → Bool) (q : α → Bool) :
    ∀ l : List α, (∀ a ∈ l, ((f a).filter p).length = if q a then 1 else 0) →
      ((l.flatMap f).filter p).length = l.countP q
  | [], _ => by simp
  | a :: rest, h => by
    rw [List.flatMap_cons, List.filter_append, List.length_append,
      h a (List.mem_cons_self a rest), List.countP_cons,
      length_filter_flatMap f p q rest (fun b hb => h b (List.mem_cons_of_mem a hb))]
    by_cases hq : q a = true
    · simp [hq]
      omega
    · simp [hq]

theorem length_filter_code_eq_zero {code : String} {l : List FindingCore}
    (h : ∀ r ∈ l, ¬ r.ruleCode = code) :
    (l.filter (fun c => c.ruleCode == code)).length = 0 := by
  rw [List.filter_eq_nil_iff.mpr (fun c hc => by simp [h c hc]), List.length_nil]

theorem codes_nodeRuleFindings (n : DFDNode) :
    ∀ r ∈ nodeRuleFindings n, r.ruleCode = "N-002" ∨ r.ruleCode = "N-003" := by
  intro r hr
  simp [nodeRuleFindings] at hr
  rcases hr with ⟨-, h | h⟩ | ⟨-, h⟩ <;> simp [h]

theorem codes_edgeRuleFindings (nodes : List DFDNode) (e : DFDEdge) :
    ∀ r ∈ edgeRuleFindings nodes e,
      r.ruleCode = "E-001" ∨ r.ruleCode = "E-002" ∨ r.ruleCode = "E-003" ∨
      r.ruleCode = "E-004" ∨ r.ruleCode = "E-005" := by
  intro r hr
  unfold edgeRuleFindings at hr
  rcases List.mem_append.mp hr with h | h
  · by_cases hb : strBlank e.label = true
    · rw [if_pos hb] at h; simp at h; simp [h]
    · rw [if_neg hb] at h; simp at h
  · cases hs : nodeMapGet nodes e.sourceNodeId with
    | none =>
      rw [hs] at h
      simp at h
      simp [h]
    | some s =>
      rw [hs] at h
      cases ht : nodeMapGet nodes e.targetNodeId with
      | none => rw [ht] at h; simp at h; simp [h]
      | some t =>
        rw [ht] at h
        simp at h
        rcases h with ⟨-, h⟩ | ⟨-, h⟩ | ⟨-, h⟩ <;> simp [h]

theorem codes_level0Findings (d : DFDDiagram) :
    ∀ r ∈ level0Findings d,
      r.ruleCode = "D-001" ∨ r.ruleCode = "L0-001" ∨ r.ruleCode = "D-002" := by
  intro r hr
  unfold level0Findings at hr
  by_cases hl : (d.level == 0) = true
  case neg => simp [hl] at hr
  case pos =>
    rw [if_pos hl] at hr
    rcases List.mem_append.mp hr with h | h
    · by_cases hc : ((d.nodes.filter (fun n => n.type == .process)).length != 1) = true
      · rw [if_pos hc] at h
        simp at h
        simp [h]
      · rw [if_neg hc] at h
        cases hh : (d.nodes.filter (fun n => n.type == .process)).head? with
        | none => rw [hh] at h; simp at h
        | some p =>
          rw [hh] at h
          simp at h
          rcases h with ⟨-, h⟩
          simp [h]
    · rcases List.mem_map.mp h with ⟨s, -, hs⟩
      simp [← hs]

theorem codes_level1Findings (d : DFDDiagram) :
    ∀ r ∈ level1Findings d, r.ruleCode = "L1-001" := by
  intro r hr
  unfold level1Findings at hr
  by_cases hl : (d.level == 1) = true
  case neg => simp [hl] at hr
  case pos =>
    rw [if_pos hl] at hr
    rcases List.mem_flatten.mp hr with ⟨l, hl2, hrl⟩
    rcases List.mem_map.mp hl2 with ⟨p, -, hp⟩
    subst hp
    by_cases hn : (!isL1ProcessNumber p.processNumber) = true
    · rw [if_pos hn] at hrl
      simp at hrl
      simp [hrl]
    · rw [if_neg hn] at hrl
      simp at hrl

theorem codes_connectivityFindings (edges : List DFDEdge) (n : DFDNode) :
    ∀ r ∈ connectivityFindings edges n,
      r.ruleCode = "N-004" ∨ r.ruleCode = "P-001" ∨ r.ruleCode = "P-002" ∨
      r.ruleCode = "P-003" := by
  intro r hr
  simp [connectivityFindings] at hr
  rcases hr with ⟨-, h⟩ | ⟨-, ⟨-, h⟩ | ⟨-, h⟩ | ⟨-, h⟩⟩ <;> simp [h]

theorem flatMap_count_zero {α : Type _} (f : α → List FindingCore) (l : List α)
    (code : String) (h : ∀ a ∈ l, ∀ r ∈ f a, ¬ r.ruleCode = code) :
    ((l.flatMap f).filter (fun c => c.ruleCode == code)).length = 0 :=
  length_filter_code_eq_zero (fun r hr => by
    rcases List.mem_flatMap.mp hr with ⟨a, ha, hra⟩
    exact h a ha r hra)

theorem no_incident_iff (edges : List DFDEdge) (nid : String) :
    ((inputsOf edges nid).length + (outputsOf edges nid).length == 0)
      = edges.all (fun e => !(e.targetNodeId == nid) && !(e.sourceNodeId == nid)) := by
  rw [Bool.eq_iff_iff]
  simp [inputsOf, outputsOf, List.length_eq_zero, List.filter_eq_nil_iff,
    List.all_eq_true, Nat.add_eq_zero]
  constructor
  · rintro ⟨h1, h2⟩ e he
    exact ⟨h1 e he, h2 e he⟩
  · intro h
    exact ⟨fun e he => (h e he).1, fun e he => (h e he).2⟩

theorem no_input_iff (edges : List DFDEdge) (nid : String) :
    ((inputsOf edges nid).length == 0) = edges.all (fun e => !(e.targetNodeId == nid)) := by
  rw [Bool.eq_iff_iff]
  simp [inputsOf, List.length_eq_zero, List.filter_eq_nil_iff, List.all_eq_true]

theorem no_output_iff (edges : List DFDEdge) (nid : String) :
    ((outputsOf edges nid).length == 0) = edges.all (fun e => !(e.sourceNodeId == nid)) := by
  rw [Bool.eq_iff_iff]
  simp [outputsOf, List.length_eq_zero, List.filter_eq_nil_iff, List.all_eq_true]

theorem connectivity_count_N004 (edges : List DFDEdge) (n : DFDNode) :
    ((connectivityFindings edges n).filter (fun c => c.ruleCode == "N-004")).length
      = if ((inputsOf edges n.id).length + (outputsOf edges n.id).length == 0)
        then 1 else 0 := by
  unfold connectivityFindings
  by_cases h0 : ((inputsOf edges n.id).length + (outputsOf edges n.id).length == 0) = true <;>
    by_cases hp : (n.type == NodeType.process) = true <;>
      by_cases h1 : ((inputsOf edges n.id).length == 0) = true <;>
        by_cases h2 : ((outputsOf edges n.id).length == 0) = true <;>
          by_cases h3 : (edges.filter
              (fun e => e.sourceNodeId == n.id && e.targetNodeId == n.id)).length > 0 <;>
            simp [h0, hp, h1, h2, h3]

theorem connectivity_count_P001 (edges : List DFDEdge) (n : DFDNode) :
    ((connectivityFindings edges n).filter (fun c => c.ruleCode == "P-001")).length
      = if (n.type == NodeType.process && ((inputsOf edges n.id).length == 0))
        then 1 else 0 := by
  unfold connectivityFindings
  by_cases h0 : ((inputsOf edges n.id).length + (outputsOf edges n.id).length == 0) = true <;>
    by_cases hp : (n.type == NodeType.process) = true <;>
      by_cases h1 : ((inputsOf edges n.id).length == 0) = true <;>
        by_cases h2 : ((outputsOf edges n.id).length == 0) = true <;>
          by_cases h3 : (edges.filter
              (fun e => e.sourceNodeId == n.id && e.targetNodeId == n.id)).length > 0 <;>
            simp [h0, hp, h1, h2, h3]

theorem connectivity_count_P002 (edges : List DFDEdge) (n : DFDNode) :
    ((connectivityFindings edges n).filter (fun c => c.ruleCode == "P-002")).length
      = if (n.type == NodeType.process && ((outputsOf edges n.id).length == 0))
        then 1 else 0 := by
  unfold connectivityFindings
  by_cases h0 : ((inputsOf edges n.id).length + (outputsOf edges n.id).length == 0) = true <;>
    by_cases hp : (n.type == NodeType.process) = true <;>
      by_cases h1 : ((inputsOf edges n.id).length == 0) = true <;>
        by_cases h2 : ((outputsOf edges n.id).length == 0) = true <;>
          by_cases h3 : (edges.filter
              (fun e => e.sourceNodeId == n.id && e.targetNodeId == n.id)).length > 0 <;>
            simp [h0, hp, h1, h2, h3]

theorem level0_count_D001 (d : DFDDiagram) :
    ((level0Findings d).filter (fun c => c.ruleCode == "D-001")).length
      = if d.level = 0 ∧ processCountAllLevels d ≠ 1 then 1 else 0 := by
  unfold level0Findings processCountAllLevels
  by_cases hl : (d.level == 0) = true
  · rw [if_pos hl]
    have hl' : d.level = 0 := by simpa using hl
    rw [List.filter_append, List.length_append]
    have hmap : (((d.nodes.filter (fun n => n.type == .datastore)).map (fun s =>
        (⟨"D-002", .error, "Data stores are not allowed in Level 0 DFD.",
          some s.id, none⟩ : FindingCore))).filter
          (fun c => c.ruleCode == "D-001")).length = 0 :=
      length_filter_code_eq_zero (fun r hr => by
        rcases List.mem_map.mp hr with ⟨s, -, hs⟩
        simp [← hs])
    rw [hmap]
    by_cases hc : ((d.nodes.filter (fun n => n.type == .process)).length != 1) = true
    · have hc' : (d.nodes.filter (fun n => n.type == .process)).length ≠ 1 := by
        simpa using hc
      rw [if_pos hc]
      simp [hl', hc']
    · have hc' : (d.nodes.filter (fun n => n.type == .process)).length = 1 := by
        simpa using hc
      rw [if_neg hc]
      cases hh : (d.nodes.filter (fun n => n.type == .process)).head? with
      | none => simp [hc']
      | some p => by_cases hp : (p.processNumber != "0.0") = true <;> simp [hp, hc']
  · rw [if_neg hl]
    have hl' : ¬ d.level = 0 := by simpa using hl
    simp [hl']

/-- Level-0 view of a diagram holding a level-0 process and a level-1
process: D-001 counts processes of every level, so it fires. -/
def mixedLevelDiagram : DFDDiagram :=
  ⟨0, [⟨"p0", .process, "Main", 0, 0, 0, "0.0", "", none, none, none⟩,
       ⟨"p1", .process, "Sub", 1, 0, 0, "1.0", "", none, none, none⟩], []⟩

/-- Level-0 view of a diagram where the level-0 entity's only incident edge
is a level-1 edge: N-004 counts edges of every level, so nothing is
flagged. -/
def crossLevelEdgeDiagram : DFDDiagram :=
  ⟨0, [⟨"n1", .entity, "A", 0, 0, 0, "", "", none, none, none⟩,
       ⟨"p1", .process, "Sub", 1, 0, 0, "1.0", "", none, none, none⟩],
      [⟨"e1", "flow", "n1", "p1", 1, none, none, none, none⟩]⟩

/-- C10: `validateDiagram` evaluates its connectivity and diagram-level
rules over the full node and edge lists without filtering by level: the
D-001 check (at diagram level 0) counts process nodes of every level;
the incident-edge counts behind N-004 / P-001 / P-002 range over edges
of every level.  In particular a level-0 view with one level-0 and one
level-1 process fires D-001, and a node whose only incident edge belongs
to another level is not flagged N-004. -/
theorem validateDiagram_ignores_level (gen : Nat → String) (d : DFDDiagram) :
    (ruleCount (validateDiagram gen d) "D-001"
      = if d.level = 0 ∧ processCountAllLevels d ≠ 1 then 1 else 0) ∧
    (ruleCount (validateDiagram gen d) "N-004"
      = d.nodes.countP (fun n =>
          d.edges.all (fun e => !(e.targetNodeId == n.id) && !(e.sourceNodeId == n.id)))) ∧
    (ruleCount (validateDiagram gen d) "P-001"
      = d.nodes.countP (fun n =>
          n.type == NodeType.process && d.edges.all (fun e => !(e.targetNodeId == n.id)))) ∧
    (ruleCount (validateDiagram gen d) "P-002"
      = d.nodes.countP (fun n =>
          n.type == NodeType.process && d.edges.all (fun e => !(e.sourceNodeId == n.id)))) ∧
    ruleCount (validateDiagram gen mixedLevelDiagram) "D-001" = 1 ∧
    ruleCount (validateDiagram gen crossLevelEdgeDiagram) "N-004" = 0 := by
  refine ⟨?_, ?_, ?_, ?_, ?_, ?_⟩
  · rw [ruleCount_validateDiagram]
    unfold validateCore
    rw [List.filter_append, List.filter_append, List.filter_append, List.filter_append]
    simp only [List.length_append]
    rw [flatMap_count_zero nodeRuleFindings d.nodes "D-001" (fun n _ r hr => by
        rcases codes_nodeRuleFindings n r hr with h | h <;> simp [h]),
      flatMap_count_zero (edgeRuleFindings d.nodes) d.edges "D-001" (fun e _ r hr => by
        rcases codes_edgeRuleFindings d.nodes e r hr with h | h | h | h | h <;> simp [h]),
      flatMap_count_zero (connectivityFindings d.edges) d.nodes "D-001" (fun n _ r hr => by
        rcases codes_connectivityFindings d.edges n r hr with h | h | h | h <;> simp [h]),
      level0_count_D001 d,
      length_filter_code_eq_zero (fun r hr => by simp [codes_level1Findings d r hr])]
    omega
  · rw [ruleCount_validateDiagram]
    unfold validateCore
    rw [List.filter_append, List.filter_append, List.filter_append, List.filter_append]
    simp only [List.length_append]
    rw [flatMap_count_zero nodeRuleFindings d.nodes "N-004" (fun n _ r hr => by
        rcases codes_nodeRuleFindings n r hr with h | h <;> simp [h]),
      flatMap_count_zero (edgeRuleFindings d.nodes) d.edges "N-004" (fun e _ r hr => by
        rcases codes_edgeRuleFindings d.nodes e r hr with h | h | h | h | h <;> simp [h]),
      length_filter_flatMap (connectivityFindings d.edges) (fun c => c.ruleCode == "N-004")
        (fun n => ((inputsOf d.edges n.id).length + (outputsOf d.edges n.id).length == 0))
        d.nodes (fun n _ => connectivity_count_N004 d.edges n),
      length_filter_code_eq_zero (fun r hr => by
        rcases codes_level0Findings d r hr with h | h | h <;> simp [h]),
      length_filter_code_eq_zero (fun r hr => by simp [codes_level1Findings d r hr]),
      List.countP_congr (fun n _ => by rw [no_incident_iff d.edges n.id])]
    omega
  · rw [ruleCount_validateDiagram]
    unfold validateCore
    rw [List.filter_append, List.filter_append, List.filter_append, List.filter_append]
    simp only [List.length_append]
    rw [flatMap_count_zero nodeRuleFindings d.nodes "P-001" (fun n _ r hr => by
        rcases codes_nodeRuleFindings n r hr with h | h <;> simp [h]),
      flatMap_count_zero (edgeRuleFindings d.nodes) d.edges "P-001" (fun e _ r hr => by
        rcases codes_edgeRuleFindings d.nodes e r hr with h | h | h | h | h <;> simp [h]),
      length_filter_flatMap (connectivityFindings d.edges) (fun c => c.ruleCode == "P-001")
        (fun n => (n.type == NodeType.process && ((inputsOf d.edges n.id).length == 0)))
        d.nodes (fun n _ => connectivity_count_P001 d.edges n),
      length_filter_code_eq_zero (fun r hr => by
        rcases codes_level0Findings d r hr with h | h | h <;> simp [h]),
      length_filter_code_eq_zero (fun r hr => by simp [codes_level1Findings d r hr]),
      List.countP_congr (fun n _ => by rw [no_input_iff d.edges n.id])]
    omega
  · rw [ruleCount_validateDiagram]
    unfold validateCore
    rw [List.filter_append, List.filter_append, List.filter_append, List.filter_append]
    simp only [List.length_append]
    rw [flatMap_count_zero nodeRuleFindings d.nodes "P-002" (fun n _ r hr => by
        rcases codes_nodeRuleFindings n r hr with h | h <;> simp [h]),
      flatMap_count_zero (edgeRuleFindings d.nodes) d.edges "P-002" (fun e _ r hr => by
        rcases codes_edgeRuleFindings d.nodes e r hr with h | h | h | h | h <;> simp [h]),
      length_filter_flatMap (connectivityFindings d.edges) (fun c => c.ruleCode == "P-002")
        (fun n => (n.type == NodeType.process && ((outputsOf d.edges n.id).length == 0)))
        d.nodes (fun n _ => connectivity_count_P002 d.edges n),
      length_filter_code_eq_zero (fun r hr => by
        rcases codes_level0Findings d r hr with h | h | h <;> simp [h]),
      length_filter_code_eq_zero (fun r hr => by simp [codes_level1Findings d r hr]),
      List.countP_congr (fun n _ => by rw [no_output_iff d.edges n.id])]
    omega
  · rw [ruleCount_validateDiagram]
    decide
  · rw [ruleCount_validateDiagram]
    decide

end DFD
